import Mathlib

/-!
Shallow embedding of the horse-race simulation core of `src/js/horse.js`
(class `Horse`): agent state, the race-positioning service, final-lap
balancing, the random-event subsystem, the per-tick update algorithm and
`reset`.  JavaScript numbers are modelled as exact rationals (`ℚ`);
`Math.random()` draws are threaded as explicit parameters, each assumed to
lie in `[0, 1)` where a theorem needs it.  Rendering-only state (sprite,
labels, connecting line, lane offset) and `console.log` calls are omitted:
they never feed back into the race state.
-/

/-- The named race events of `handleRaceEvents` (`this.currentEvent` holds
one of these strings, or `null`, in the source). -/
inductive RaceEvent where
  | burstOfSpeed      -- "burst of speed"
  | slightSlowdown    -- "slight slowdown"
  | comebackEffort    -- "comeback effort"
  | briefFatigue      -- "brief fatigue"
  deriving DecidableEq, Repr

/-- One per-lap modifier pair (`horse.js` lines 48-54). -/
structure LapFactor where
  speedBoost : ℚ
  staminaBoost : ℚ
  deriving DecidableEq, Repr

/-- The race-relevant state of one `Horse` object.  `lane` doubles as the
object identity used by `findIndex(h => h === this)`: lanes are fixed at
creation and unique within a race. -/
structure Horse where
  lane : ℕ
  baseSpeed : ℚ
  stamina : ℚ
  acceleration : ℚ
  luckFactor : ℚ
  currentSpeed : ℚ
  distance : ℚ
  currentLap : ℤ
  finished : Bool
  finishTime : Option ℚ
  position : Option ℕ
  catchUpFactor : ℚ
  leadHandicap : ℚ
  nextEventTime : ℚ
  eventDuration : ℚ
  currentEvent : Option RaceEvent
  eventMultiplier : ℚ
  momentum : ℚ
  lapFactors : List LapFactor
  deriving DecidableEq, Repr

instance : Inhabited Horse :=
  ⟨{ lane := 0, baseSpeed := 0, stamina := 0, acceleration := 0, luckFactor := 0,
     currentSpeed := 0, distance := 0, currentLap := 1, finished := false,
     finishTime := none, position := none, catchUpFactor := 0, leadHandicap := 0,
     nextEventTime := 0, eventDuration := 0, currentEvent := none,
     eventMultiplier := 1, momentum := 0, lapFactors := [] }⟩

/-- The scene fields the simulation core reads (the roster itself is passed
separately, as an explicit snapshot). -/
structure Scene where
  totalLaps : ℕ
  trackLength : ℚ
  totalRaceDistance : ℚ
  trackWidth : ℚ
  trackHeight : ℚ
  raceInProgress : Bool
  raceStartTime : Option ℚ
  deriving DecidableEq, Repr

/-- Distance-descending order used by `sort((a, b) => b.distance - a.distance)`:
`dge a b` holds when `a` may come before `b`. -/
def dge (a b : Horse) : Prop := b.distance ≤ a.distance

instance : DecidableRel dge := fun a b => inferInstanceAs (Decidable (b.distance ≤ a.distance))

instance : IsTotal Horse dge := ⟨fun a b => le_total b.distance a.distance⟩

instance : IsTrans Horse dge := ⟨fun _ _ _ h1 h2 => le_trans h2 h1⟩

/-- `[...activeHorses].sort((a, b) => b.distance - a.distance)`: a stable sort
by distance, descending (insertion sort is extensionally the stable sort). -/
def sortByDistanceDesc (l : List Horse) : List Horse := List.insertionSort dge l

/-- `this.scene.horses.filter(h => !h.finished)`. -/
def activeHorses (l : List Horse) : List Horse := l.filter (fun h => !h.finished)

/-- `Horse.updateRacePositioningFactors` (`horse.js` lines 366-423).
`posBoost` is the `Math.random()` draw behind `randomBoost`, `posRoll` the
draw behind the stochastic recovery (trailing) / ease-off (leader) nudge. -/
def updateRacePositioningFactors (scene : Scene) (horses : List Horse)
    (posBoost posRoll : ℚ) (self : Horse) : Horse :=
  if scene.raceInProgress = false ∨ self.finished = true then self
  else
    let active := activeHorses horses
    if active.length ≤ 1 then self
    else
      let sorted := sortByDistanceDesc active
      let pos := sorted.findIdx (fun h => h.lane == self.lane)
      if 0 < pos then
        let leader := sorted.getD 0 default
        let distanceBehind := leader.distance - self.distance
        let percentBehind := distanceBehind / scene.trackLength
        let positionFactor := min 0.25 (0.03 * (pos : ℚ))
        let distanceFactor := min 0.25 (percentBehind * 1.5)
        let randomBoost := posBoost * 0.1
        let cf0 := positionFactor + distanceFactor + randomBoost
        let cf := if pos = sorted.length - 1 then cf0 + 0.15 else cf0
        let self := { self with catchUpFactor := cf }
        if posRoll < 0.02 ∧ (sorted.length : ℚ) / 2 < (pos : ℚ) then
          { self with momentum := self.momentum + 0.2 }
        else self
      else
        let secondPlace := sorted.getD 1 default
        let leadDistance := self.distance - secondPlace.distance
        let percentAhead := leadDistance / scene.trackLength
        let self := { self with leadHandicap := min 0.3 (percentAhead * 2.0) }
        let self :=
          if posRoll < 0.05 ∧ 0.03 < percentAhead then
            { self with momentum := self.momentum - 0.1 }
          else self
        { self with catchUpFactor := 0 }

/-- `Horse.applyFinalLapBalancing` (`horse.js` lines 425-465): a one-shot
momentum adjustment on the tick where `currentLap` first becomes the final
lap. -/
def applyFinalLapBalancing (scene : Scene) (horses : List Horse) (self : Horse) : Horse :=
  let active := activeHorses horses
  if active.length ≤ 1 then self
  else
    let sorted := sortByDistanceDesc active
    let pos := sorted.findIdx (fun h => h.lane == self.lane)
    let totalHorses := sorted.length
    if pos = 0 then
      let secondPlace := sorted.getD 1 default
      let leadDistance := self.distance - secondPlace.distance
      if scene.trackLength * 0.05 < leadDistance then
        { self with momentum := self.momentum - 0.1 }
      else self
    else
      let boostFactor := min (0.1 + ((pos : ℚ) / (totalHorses : ℚ)) * 0.15) 0.25
      let self := { self with momentum := self.momentum + boostFactor }
      if pos = totalHorses - 1 then { self with momentum := self.momentum + 0.1 }
      else self

/-- The `Math.random()` draws one call of `Horse.update` may consume, in
source order.  `surgeRoll`/`surgeAmt` feed the lap-change surge, `evRoll`
is `eventChance`, `ev1`-`ev3` the draws inside the chosen event branch,
`posBoost`/`posRoll` feed the positioning service, `instRand` the
instantaneous random factor. -/
structure Draws where
  surgeRoll : ℚ
  surgeAmt : ℚ
  evRoll : ℚ
  ev1 : ℚ
  ev2 : ℚ
  ev3 : ℚ
  posBoost : ℚ
  posRoll : ℚ
  instRand : ℚ
  deriving DecidableEq, Repr

/-- `Horse.handleRaceEvents` (`horse.js` lines 298-364).  The JS guard
`this.scene.raceStartTime && ...` treats a missing or zero start time as
falsy. -/
def handleRaceEvents (scene : Scene) (time delta : ℚ) (d : Draws) (h : Horse) : Horse :=
  if scene.raceStartTime.getD 0 = 0 then h
  else if scene.raceStartTime.getD 0 + h.nextEventTime < time then
    if h.currentEvent.isSome then
      if h.eventDuration - delta ≤ 0 then
        { h with eventDuration := h.eventDuration - delta, currentEvent := none,
                 eventMultiplier := 1.0,
                 nextEventTime := time - scene.raceStartTime.getD 0 + 5000 + d.ev1 * 7000 }
      else { h with eventDuration := h.eventDuration - delta }
    else
      if d.evRoll < 0.12 then
        { h with currentEvent := some RaceEvent.burstOfSpeed, eventMultiplier := 1.25,
                 eventDuration := 800 + d.ev1 * 1200 }
      else if d.evRoll < 0.24 then
        { h with currentEvent := some RaceEvent.slightSlowdown, eventMultiplier := 0.85,
                 eventDuration := 800 + d.ev1 * 1200 }
      else if d.evRoll < 0.36 then
        { h with
          momentum := if d.ev1 < 0.5 then h.momentum + (0.15 + d.ev2 * 0.1) else h.momentum - (0.1 + d.ev2 * 0.15),
          nextEventTime := time - scene.raceStartTime.getD 0 + 5000 + d.ev3 * 7000 }
      else if d.evRoll < 0.42 then
        if 0.2 < h.catchUpFactor then
          { h with currentEvent := some RaceEvent.comebackEffort, eventMultiplier := 1.35,
                   eventDuration := 1000 + d.ev1 * 1000 }
        else
          { h with nextEventTime := time - scene.raceStartTime.getD 0 + 4000 + d.ev1 * 6000 }
      else if d.evRoll < 0.48 then
        { h with currentEvent := some RaceEvent.briefFatigue, eventMultiplier := 0.8,
                 eventDuration := 1000 + d.ev1 * 1000 }
      else
        { h with nextEventTime := time - scene.raceStartTime.getD 0 + 4000 + d.ev1 * 6000 }
  else h

/-- `Math.min(this.scene.totalLaps, Math.floor(this.distance / this.scene.trackLength) + 1)`
(`horse.js` line 164). -/
def computeLap (scene : Scene) (dist : ℚ) : ℤ :=
  min (scene.totalLaps : ℤ) (⌊dist / scene.trackLength⌋ + 1)

/-- Lap recompute, lap-change surge and final-lap balancing
(`horse.js` lines 162-179). -/
def lapStage (scene : Scene) (horses : List Horse) (d : Draws) (h : Horse) : Horse :=
  let previousLap := h.currentLap
  let h := { h with currentLap := computeLap scene h.distance }
  if previousLap < h.currentLap then
    let h :=
      if d.surgeRoll < 0.3 then { h with momentum := h.momentum + d.surgeAmt * 0.15 }
      else h
    if h.currentLap = (scene.totalLaps : ℤ) then applyFinalLapBalancing scene horses h
    else h
  else h

/-- `this.lapFactors[lapIndex] || { speedBoost: 0, staminaBoost: 0 }`
(`horse.js` lines 188-189): an out-of-range index yields the fallback. -/
def lapFactorAt (fs : List LapFactor) (i : ℤ) : LapFactor :=
  if 0 ≤ i then fs.getD i.toNat { speedBoost := 0, staminaBoost := 0 }
  else { speedBoost := 0, staminaBoost := 0 }

/-- Momentum decay (`horse.js` lines 191-196). -/
def decayMomentum (m : ℚ) : ℚ :=
  if 0.01 < |m| then m * 0.995 else 0

/-- Truncation toward zero, as JS `%` uses. -/
def ratTrunc (q : ℚ) : ℤ := if 0 ≤ q then ⌊q⌋ else ⌈q⌉

/-- The JS remainder `a % b` (sign of the dividend). -/
def jsMod (a b : ℚ) : ℚ := a - b * (ratTrunc (a / b) : ℚ)

/-- The new `currentSpeed` of one tick: acceleration toward the target
speed, deceleration when more than 10% above it, then the minimum-speed
clamp (`horse.js` lines 206-220). -/
def integrateSpeed (delta : ℚ) (h : Horse) : ℚ :=
  let lapFactor := lapFactorAt h.lapFactors (h.currentLap - 1)
  let m := decayMomentum h.momentum
  let targetSpeed := h.baseSpeed * (1 + lapFactor.speedBoost + h.catchUpFactor - h.leadHandicap + m)
  let cs0 :=
    if h.currentSpeed < targetSpeed then
      h.currentSpeed + h.acceleration * (1 + h.catchUpFactor) * (delta / 1000)
    else if targetSpeed * 1.1 < h.currentSpeed then
      h.currentSpeed - h.acceleration * 0.5 * (delta / 1000)
    else h.currentSpeed
  max (0.7 + h.catchUpFactor * 1.5) cs0

/-- The new `distance` of one tick: the clamped speed times the stamina,
random and event factors, scaled by elapsed seconds and the track-size
constant (`horse.js` lines 198-227). -/
def integrateDist (scene : Scene) (delta : ℚ) (d : Draws) (h : Horse) : ℚ :=
  let lapFactor := lapFactorAt h.lapFactors (h.currentLap - 1)
  let raceProgress := h.distance / scene.totalRaceDistance
  let staminaFactor := max 0.7 (1 - raceProgress / (h.stamina + lapFactor.staminaBoost))
  let instantRandomFactor := 1 + (d.instRand - 0.5) * (h.luckFactor + 0.15)
  let actualSpeed :=
    integrateSpeed delta h * staminaFactor * instantRandomFactor * h.eventMultiplier
  let speedScale := max 0.7 (min scene.trackWidth scene.trackHeight / 400)
  h.distance + actualSpeed * (delta / 1000) * 80 * speedScale

/-- Momentum decay, speed integration, distance accumulation and the finish
check (`horse.js` lines 187-227 and 266-271, plus `finishRace`, lines
515-520).  The returned `Bool` records whether
`this.scene.horseFinished(this)` was called this tick. -/
def integrate (scene : Scene) (time delta : ℚ) (d : Draws) (h : Horse) : Horse × Bool :=
  let dist := integrateDist scene delta d h
  let h2 := { h with momentum := decayMomentum h.momentum,
                     currentSpeed := integrateSpeed delta h, distance := dist }
  if h.finished = false ∧ (scene.totalLaps : ℚ) * scene.trackLength ≤ dist
      ∧ 0 ≤ jsMod dist scene.trackLength ∧ jsMod dist scene.trackLength ≤ 50 then
    ({ h2 with finished := true, finishTime := some time }, true)
  else (h2, false)

/-- `Horse.update` (`horse.js` lines 154-271), restricted to the race state:
sprite/label/line placement and the logging are rendering-only.  `horses` is
the roster snapshot `this.scene.horses` as the positioning service and the
final-lap balancing read it. -/
def update (scene : Scene) (horses : List Horse) (time delta : ℚ) (d : Draws)
    (h : Horse) : Horse × Bool :=
  if h.finished then (h, false)
  else
    let h1 := lapStage scene horses d h
    let h2 := handleRaceEvents scene time delta d h1
    let h3 := updateRacePositioningFactors scene horses d.posBoost d.posRoll h2
    integrate scene time delta d h3

/-- `Horse.reset` (`horse.js` lines 467-507), restricted to the race state
(the rest of the method repositions the sprite and the name label). -/
def reset (h : Horse) : Horse :=
  { h with currentSpeed := 0, distance := 0, currentLap := 1, finished := false,
           finishTime := none, position := none, catchUpFactor := 0, leadHandicap := 0 }

/-- The `lapFactors` construction loop of the constructor (`horse.js` lines
48-54): one entry per lap, from two random draws each. -/
def mkLapFactors (rs : ℕ → ℚ × ℚ) (n : ℕ) : List LapFactor :=
  (List.range n).map fun i =>
    { speedBoost := (rs i).1 * 0.2 - 0.1, staminaBoost := (rs i).2 * 0.16 - 0.08 }

/-- A concrete freshly-constructed horse (all race state at its
start-of-race values), used as the base of the concrete instances below. -/
def plainHorse : Horse :=
  { lane := 0, baseSpeed := 2, stamina := 17/20, acceleration := 3/10,
    luckFactor := 1/10, currentSpeed := 0, distance := 0, currentLap := 1,
    finished := false, finishTime := none, position := none, catchUpFactor := 0,
    leadHandicap := 0, nextEventTime := 3000, eventDuration := 0,
    currentEvent := none, eventMultiplier := 1, momentum := 0,
    lapFactors := [{ speedBoost := 0, staminaBoost := 0 }] }

/-- Scene of the spec scenarios: track length 1000, one lap, race running. -/
def plainScene : Scene :=
  { totalLaps := 1, trackLength := 1000, totalRaceDistance := 1000,
    trackWidth := 400, trackHeight := 400, raceInProgress := true,
    raceStartTime := some 1 }

lemma mem_sortByDistanceDesc {x : Horse} {l : List Horse} :
    x ∈ sortByDistanceDesc l ↔ x ∈ l :=
  (List.perm_insertionSort dge l).mem_iff

lemma sortByDistanceDesc_pairwise (l : List Horse) :
    (sortByDistanceDesc l).Pairwise dge :=
  List.sorted_insertionSort dge l

/-- The first element of a distance-descending list bounds every member. -/
lemma distance_le_getD_zero {l : List Horse} {x : Horse}
    (hs : l.Pairwise dge) (hx : x ∈ l) :
    x.distance ≤ (l.getD 0 default).distance := by
  cases l with
  | nil => cases hx
  | cons a t =>
    rcases List.mem_cons.1 hx with rfl | hx
    · simp
    · simpa using (List.pairwise_cons.1 hs).1 x hx

/-- `applyFinalLapBalancing` writes only `momentum`. -/
lemma applyFinalLapBalancing_shape (scene : Scene) (horses : List Horse) (self : Horse) :
    ∃ m, applyFinalLapBalancing scene horses self = { self with momentum := m } := by
  unfold applyFinalLapBalancing
  simp only []
  split_ifs <;> exact ⟨_, rfl⟩

lemma handleRaceEvents_distance (scene : Scene) (time delta : ℚ) (d : Draws) (h : Horse) :
    (handleRaceEvents scene time delta d h).distance = h.distance := by
  unfold handleRaceEvents
  repeat' split
  all_goals rfl

lemma handleRaceEvents_finished (scene : Scene) (time delta : ℚ) (d : Draws) (h : Horse) :
    (handleRaceEvents scene time delta d h).finished = h.finished := by
  unfold handleRaceEvents
  repeat' split
  all_goals rfl

lemma handleRaceEvents_finishTime (scene : Scene) (time delta : ℚ) (d : Draws) (h : Horse) :
    (handleRaceEvents scene time delta d h).finishTime = h.finishTime := by
  unfold handleRaceEvents
  repeat' split
  all_goals rfl

lemma handleRaceEvents_currentLap (scene : Scene) (time delta : ℚ) (d : Draws) (h : Horse) :
    (handleRaceEvents scene time delta d h).currentLap = h.currentLap := by
  unfold handleRaceEvents
  repeat' split
  all_goals rfl

lemma handleRaceEvents_catchUpFactor (scene : Scene) (time delta : ℚ) (d : Draws) (h : Horse) :
    (handleRaceEvents scene time delta d h).catchUpFactor = h.catchUpFactor := by
  unfold handleRaceEvents
  repeat' split
  all_goals rfl

lemma handleRaceEvents_luckFactor (scene : Scene) (time delta : ℚ) (d : Draws) (h : Horse) :
    (handleRaceEvents scene time delta d h).luckFactor = h.luckFactor := by
  unfold handleRaceEvents
  repeat' split
  all_goals rfl

/-- Every event multiplier the subsystem installs is positive, so a positive
multiplier stays positive across the event tick. -/
lemma handleRaceEvents_eventMultiplier_pos (scene : Scene) (time delta : ℚ) (d : Draws)
    (h : Horse) (hp : 0 < h.eventMultiplier) :
    0 < (handleRaceEvents scene time delta d h).eventMultiplier := by
  unfold handleRaceEvents
  repeat' split
  all_goals first | exact hp | norm_num

/-- With no race start time the event subsystem is inert. -/
lemma handleRaceEvents_of_noStart (scene : Scene) (time delta : ℚ) (d : Draws) (h : Horse)
    (hrs : scene.raceStartTime = none) :
    handleRaceEvents scene time delta d h = h := by
  unfold handleRaceEvents
  rw [hrs]
  rfl

/-- `lapStage` writes only `currentLap` (to the recomputed lap) and
`momentum`. -/
lemma lapStage_shape (scene : Scene) (horses : List Horse) (d : Draws) (h : Horse) :
    ∃ m, lapStage scene horses d h =
      { h with currentLap := computeLap scene h.distance, momentum := m } := by
  unfold lapStage
  simp only []
  split_ifs <;>
    first
    | exact ⟨_, rfl⟩
    | (obtain ⟨m, hm⟩ := applyFinalLapBalancing_shape scene horses _
       exact ⟨m, hm⟩)

/-- The positioning service writes only `catchUpFactor`, `leadHandicap` and
`momentum`. -/
lemma positioning_shape (scene : Scene) (horses : List Horse) (pb pr : ℚ) (self : Horse) :
    ∃ c lh m, updateRacePositioningFactors scene horses pb pr self =
      { self with catchUpFactor := c, leadHandicap := lh, momentum := m } := by
  unfold updateRacePositioningFactors
  simp only []
  split_ifs <;> exact ⟨_, _, _, rfl⟩

lemma lapStage_distance (scene : Scene) (horses : List Horse) (d : Draws) (h : Horse) :
    (lapStage scene horses d h).distance = h.distance := by
  obtain ⟨m, hm⟩ := lapStage_shape scene horses d h
  rw [hm]

lemma lapStage_finished (scene : Scene) (horses : List Horse) (d : Draws) (h : Horse) :
    (lapStage scene horses d h).finished = h.finished := by
  obtain ⟨m, hm⟩ := lapStage_shape scene horses d h
  rw [hm]

lemma lapStage_finishTime (scene : Scene) (horses : List Horse) (d : Draws) (h : Horse) :
    (lapStage scene horses d h).finishTime = h.finishTime := by
  obtain ⟨m, hm⟩ := lapStage_shape scene horses d h
  rw [hm]

lemma lapStage_catchUpFactor (scene : Scene) (horses : List Horse) (d : Draws) (h : Horse) :
    (lapStage scene horses d h).catchUpFactor = h.catchUpFactor := by
  obtain ⟨m, hm⟩ := lapStage_shape scene horses d h
  rw [hm]

lemma lapStage_luckFactor (scene : Scene) (horses : List Horse) (d : Draws) (h : Horse) :
    (lapStage scene horses d h).luckFactor = h.luckFactor := by
  obtain ⟨m, hm⟩ := lapStage_shape scene horses d h
  rw [hm]

lemma lapStage_eventMultiplier (scene : Scene) (horses : List Horse) (d : Draws) (h : Horse) :
    (lapStage scene horses d h).eventMultiplier = h.eventMultiplier := by
  obtain ⟨m, hm⟩ := lapStage_shape scene horses d h
  rw [hm]

lemma lapStage_currentLap (scene : Scene) (horses : List Horse) (d : Draws) (h : Horse) :
    (lapStage scene horses d h).currentLap = computeLap scene h.distance := by
  obtain ⟨m, hm⟩ := lapStage_shape scene horses d h
  rw [hm]

/-- When the recomputed lap does not exceed the stored lap, the surge and
final-lap branches are skipped, so `momentum` is untouched. -/
lemma lapStage_momentum_of_noLapChange (scene : Scene) (horses : List Horse) (d : Draws)
    (h : Horse) (hle : computeLap scene h.distance ≤ h.currentLap) :
    (lapStage scene horses d h).momentum = h.momentum := by
  unfold lapStage
  simp only []
  split_ifs with h1 h2 h3
  all_goals first | rfl | exact absurd h1 (not_lt.2 hle)

lemma positioning_distance (scene : Scene) (horses : List Horse) (pb pr : ℚ) (self : Horse) :
    (updateRacePositioningFactors scene horses pb pr self).distance = self.distance := by
  obtain ⟨c, lh, m, hm⟩ := positioning_shape scene horses pb pr self
  rw [hm]

lemma positioning_finished (scene : Scene) (horses : List Horse) (pb pr : ℚ) (self : Horse) :
    (updateRacePositioningFactors scene horses pb pr self).finished = self.finished := by
  obtain ⟨c, lh, m, hm⟩ := positioning_shape scene horses pb pr self
  rw [hm]

lemma positioning_finishTime (scene : Scene) (horses : List Horse) (pb pr : ℚ) (self : Horse) :
    (updateRacePositioningFactors scene horses pb pr self).finishTime = self.finishTime := by
  obtain ⟨c, lh, m, hm⟩ := positioning_shape scene horses pb pr self
  rw [hm]

lemma positioning_currentLap (scene : Scene) (horses : List Horse) (pb pr : ℚ) (self : Horse) :
    (updateRacePositioningFactors scene horses pb pr self).currentLap = self.currentLap := by
  obtain ⟨c, lh, m, hm⟩ := positioning_shape scene horses pb pr self
  rw [hm]

lemma positioning_luckFactor (scene : Scene) (horses : List Horse) (pb pr : ℚ) (self : Horse) :
    (updateRacePositioningFactors scene horses pb pr self).luckFactor = self.luckFactor := by
  obtain ⟨c, lh, m, hm⟩ := positioning_shape scene horses pb pr self
  rw [hm]

lemma positioning_eventMultiplier (scene : Scene) (horses : List Horse) (pb pr : ℚ)
    (self : Horse) :
    (updateRacePositioningFactors scene horses pb pr self).eventMultiplier
      = self.eventMultiplier := by
  obtain ⟨c, lh, m, hm⟩ := positioning_shape scene horses pb pr self
  rw [hm]

/-- Outside a running race the positioning service is inert. -/
lemma positioning_of_notInProgress (scene : Scene) (horses : List Horse) (pb pr : ℚ)
    (self : Horse) (hrp : scene.raceInProgress = false) :
    updateRacePositioningFactors scene horses pb pr self = self := by
  unfold updateRacePositioningFactors
  rw [if_pos (Or.inl hrp)]

lemma integrate_currentLap (scene : Scene) (time delta : ℚ) (d : Draws) (h : Horse) :
    (integrate scene time delta d h).1.currentLap = h.currentLap := by
  unfold integrate
  simp only []
  split_ifs <;> rfl

lemma integrate_momentum (scene : Scene) (time delta : ℚ) (d : Draws) (h : Horse) :
    (integrate scene time delta d h).1.momentum = decayMomentum h.momentum := by
  unfold integrate
  simp only []
  split_ifs <;> rfl

lemma integrate_distance (scene : Scene) (time delta : ℚ) (d : Draws) (h : Horse) :
    (integrate scene time delta d h).1.distance = integrateDist scene delta d h := by
  unfold integrate
  simp only []
  split_ifs <;> rfl

lemma integrate_finished (scene : Scene) (time delta : ℚ) (d : Draws) (h : Horse)
    (hfin : h.finished = false) :
    (integrate scene time delta d h).1.finished = (integrate scene time delta d h).2 := by
  unfold integrate
  simp only []
  split_ifs <;> simp [hfin]

/-- After the positioning service a non-negative catch-up factor stays
non-negative: the trailing branch sums non-negative parts (the roster holds
an active entry at the caller's distance, so the leader is no closer), the
leader branch resets it to zero, and the no-op branches keep the old
value. -/
lemma positioning_catchUp_nonneg (scene : Scene) (horses : List Horse) (pb pr : ℚ)
    (self : Horse) (h0 : 0 ≤ self.catchUpFactor) (hpb : 0 ≤ pb)
    (htr : 0 < scene.trackLength)
    (hmem : ∃ x ∈ horses, x.finished = false ∧ x.distance = self.distance) :
    0 ≤ (updateRacePositioningFactors scene horses pb pr self).catchUpFactor := by
  obtain ⟨x, hxh, hxf, hxd⟩ := hmem
  have hx1 : x ∈ activeHorses horses := List.mem_filter.2 ⟨hxh, by simp [hxf]⟩
  have hx2 : x.distance ≤ ((sortByDistanceDesc (activeHorses horses)).getD 0 default).distance :=
    distance_le_getD_zero (sortByDistanceDesc_pairwise _) (mem_sortByDistanceDesc.2 hx1)
  rw [hxd] at hx2
  have hpf : ∀ p : ℕ, (0:ℚ) ≤ min 0.25 (0.03 * (p:ℚ)) := fun p =>
    le_min (by norm_num) (by positivity)
  have hdf : (0:ℚ) ≤ min 0.25
      ((((sortByDistanceDesc (activeHorses horses)).getD 0 default).distance - self.distance)
        / scene.trackLength * 1.5) :=
    le_min (by norm_num)
      (mul_nonneg (div_nonneg (sub_nonneg.2 hx2) htr.le) (by norm_num))
  unfold updateRacePositioningFactors
  simp only []
  split_ifs
  any_goals exact h0
  all_goals try dsimp only
  any_goals exact le_refl (0:ℚ)
  all_goals
    linarith [hpf (List.findIdx (fun h => h.lane == self.lane)
      (sortByDistanceDesc (activeHorses horses))), hdf, hpb]

/-- One tick never moves an agent backwards: every factor of the distance
increment is non-negative. -/
lemma integrateDist_mono (scene : Scene) (delta : ℚ) (d : Draws) (h : Horse)
    (hδ : 0 ≤ delta) (hc : 0 ≤ h.catchUpFactor) (hev : 0 ≤ h.eventMultiplier)
    (hl0 : 0 ≤ h.luckFactor) (hl1 : h.luckFactor ≤ 0.25)
    (hr0 : 0 ≤ d.instRand) :
    h.distance ≤ integrateDist scene delta d h := by
  have hcs : 0 ≤ integrateSpeed delta h := by
    unfold integrateSpeed
    simp only []
    exact le_trans (by linarith) (le_max_left (0.7 + h.catchUpFactor * 1.5) _)
  have hst : (0:ℚ) ≤ max 0.7 (1 - h.distance / scene.totalRaceDistance
      / (h.stamina + (lapFactorAt h.lapFactors (h.currentLap - 1)).staminaBoost)) :=
    le_trans (by norm_num) (le_max_left _ _)
  have hir : (0:ℚ) ≤ 1 + (d.instRand - 0.5) * (h.luckFactor + 0.15) := by nlinarith
  have hsc : (0:ℚ) ≤ max 0.7 (min scene.trackWidth scene.trackHeight / 400) :=
    le_trans (by norm_num) (le_max_left _ _)
  have hall : 0 ≤ integrateSpeed delta h
      * max 0.7 (1 - h.distance / scene.totalRaceDistance
          / (h.stamina + (lapFactorAt h.lapFactors (h.currentLap - 1)).staminaBoost))
      * (1 + (d.instRand - 0.5) * (h.luckFactor + 0.15)) * h.eventMultiplier
      * (delta / 1000) * 80
      * max 0.7 (min scene.trackWidth scene.trackHeight / 400) :=
    mul_nonneg (mul_nonneg (mul_nonneg (mul_nonneg (mul_nonneg
      (mul_nonneg hcs hst) hir) hev) (by positivity)) (by norm_num)) hsc
  unfold integrateDist
  simp only []
  linarith

/-- Characterization of the finish check: the notification fires, the flag
is set and the finish time recorded exactly when the accumulated distance
reaches the total race distance with the lap-relative position inside the
`[0, 50]` window. -/
lemma integrate_spec (scene : Scene) (time delta : ℚ) (d : Draws) (h : Horse)
    (hfin : h.finished = false) :
    ((integrate scene time delta d h).2 = true ↔
      ((scene.totalLaps : ℚ) * scene.trackLength ≤ integrateDist scene delta d h ∧
        0 ≤ jsMod (integrateDist scene delta d h) scene.trackLength ∧
        jsMod (integrateDist scene delta d h) scene.trackLength ≤ 50)) ∧
    (integrate scene time delta d h).1.finished = (integrate scene time delta d h).2 ∧
    ((integrate scene time delta d h).2 = true →
      (integrate scene time delta d h).1.finishTime = some time) ∧
    ((integrate scene time delta d h).2 = false →
      (integrate scene time delta d h).1.finishTime = h.finishTime) := by
  unfold integrate
  simp only []
  split_ifs with hcond
  · exact ⟨⟨fun _ => hcond.2, fun _ => rfl⟩, rfl, fun _ => rfl, fun hf => by simp at hf⟩
  · exact ⟨⟨fun hf => by simp at hf, fun hcs => absurd ⟨hfin, hcs⟩ hcond⟩, hfin,
      fun hf => by simp at hf, fun _ => rfl⟩

/-- Leader of the two-agent spec scenario: distance 950. -/
def horseA : Horse := { plainHorse with lane := 0, distance := 950 }

/-- Trailer of the two-agent spec scenario: distance 900. -/
def horseB : Horse := { plainHorse with lane := 1, distance := 900 }

/-- A trailing agent that carries a stale lead handicap from an earlier
tick in which it led. -/
def staleHorse : Horse := { plainHorse with lane := 1, distance := 900, leadHandicap := 1/5 }

/-- A horse mid-race with every dynamic field away from its start value. -/
def wornHorse : Horse :=
  { plainHorse with
    distance := 777, currentSpeed := 2, currentLap := 1,
    finished := true, finishTime := some 42, position := some 3,
    catchUpFactor := 3/10, leadHandicap := 1/10, momentum := 1/2,
    currentEvent := some RaceEvent.burstOfSpeed, eventDuration := 500,
    eventMultiplier := 5/4, nextEventTime := 12345 }

/-- All of one tick's random draws fixed at one half. -/
def plainDraws : Draws :=
  { surgeRoll := 1/2, surgeAmt := 1/2, evRoll := 1/2, ev1 := 1/2, ev2 := 1/2,
    ev3 := 1/2, posBoost := 1/2, posRoll := 1/2, instRand := 1/2 }

/-- Scene for the finish-window scenarios: one 1000-unit lap, race not in
progress and no start time, so the event and positioning stages are inert. -/
def quietScene : Scene :=
  { totalLaps := 1, trackLength := 1000, totalRaceDistance := 1000,
    trackWidth := 400, trackHeight := 400, raceInProgress := false,
    raceStartTime := none }

/-- Agent exactly at the total race distance, lap-relative position 0. -/
def finHorse : Horse := { plainHorse with distance := 1000 }

/-- Agent past the total race distance but at lap-relative position 200. -/
def overHorse : Horse := { plainHorse with distance := 1200 }

/-- C2 counterexample: `reset` leaves `momentum`, the active event, its
duration, the event multiplier and the next-event time exactly as they
were, so a horse whose dynamic force and event state moved away from the
start-of-race values (0, none, 0, 1.0) does not get them restored. -/
theorem reset_keeps_dynamic_state_cex :
    (reset wornHorse).momentum ≠ 0 ∧
    (reset wornHorse).currentEvent ≠ none ∧
    (reset wornHorse).eventDuration ≠ 0 ∧
    (reset wornHorse).eventMultiplier ≠ 1 ∧
    (reset wornHorse).nextEventTime = 12345 := by
  refine ⟨?_, ?_, ?_, ?_, rfl⟩ <;>
    first
    | exact fun hcontra => Option.noConfusion hcontra
    | norm_num [reset, wornHorse, plainHorse]

/-- C2 (amended): `reset()` restores `currentSpeed`, `distance`,
`currentLap`, `finished`, `finishTime`, `position`, `catchUpFactor` and
`leadHandicap` to their start-of-race values, but leaves `momentum` and the
event state (`currentEvent`, `eventDuration`, `eventMultiplier`,
`nextEventTime`) unchanged. -/
theorem reset_race_state_fields (h : Horse) :
    (reset h).currentSpeed = 0 ∧ (reset h).distance = 0 ∧
    (reset h).currentLap = 1 ∧ (reset h).finished = false ∧
    (reset h).finishTime = none ∧ (reset h).position = none ∧
    (reset h).catchUpFactor = 0 ∧ (reset h).leadHandicap = 0 ∧
    (reset h).momentum = h.momentum ∧ (reset h).currentEvent = h.currentEvent ∧
    (reset h).eventDuration = h.eventDuration ∧
    (reset h).eventMultiplier = h.eventMultiplier ∧
    (reset h).nextEventTime = h.nextEventTime :=
  ⟨rfl, rfl, rfl, rfl, rfl, rfl, rfl, rfl, rfl, rfl, rfl, rfl, rfl⟩

/-- C8: `reset()` preserves the innate attributes `baseSpeed`, `stamina`,
`acceleration` and `luckFactor`, and the whole `lapFactors` sequence, so a
rematch keeps the same horse personality. -/
theorem reset_preserves_innate (h : Horse) :
    (reset h).baseSpeed = h.baseSpeed ∧ (reset h).stamina = h.stamina ∧
    (reset h).acceleration = h.acceleration ∧
    (reset h).luckFactor = h.luckFactor ∧
    (reset h).lapFactors = h.lapFactors :=
  ⟨rfl, rfl, rfl, rfl, rfl⟩

/-- C9: once `finished` is set, `update` returns at once: the whole state
is unchanged and no finish notification is sent. -/
theorem update_noop_when_finished (scene : Scene) (horses : List Horse)
    (time delta : ℚ) (d : Draws) (h : Horse) (hfin : h.finished = true) :
    update scene horses time delta d h = (h, false) := by
  unfold update
  rw [if_pos hfin]

/-- Witness for C9 at a concrete finished horse. -/
theorem update_noop_when_finished_witness :
    update plainScene [wornHorse] 0 16 plainDraws wornHorse = (wornHorse, false) :=
  update_noop_when_finished plainScene [wornHorse] 0 16 plainDraws wornHorse rfl

/-- C5: on every tick of a non-finished agent, `currentLap` is recomputed
as `min(totalLaps, floor(distance / trackLength) + 1)` from the distance at
the start of the tick, hence never exceeds `totalLaps`; and the recompute
is monotone in the distance, so a non-decreasing distance yields a
non-decreasing lap counter. -/
theorem currentLap_clamped_monotone :
    (∀ (scene : Scene) (horses : List Horse) (time delta : ℚ) (d : Draws) (h : Horse),
      h.finished = false →
      (update scene horses time delta d h).1.currentLap = computeLap scene h.distance ∧
      (update scene horses time delta d h).1.currentLap ≤ (scene.totalLaps : ℤ)) ∧
    (∀ (scene : Scene) (d1 d2 : ℚ), 0 < scene.trackLength → d1 ≤ d2 →
      computeLap scene d1 ≤ computeLap scene d2) := by
  constructor
  · intro scene horses time delta d h hfin
    have hne : ¬(h.finished = true) := by simp [hfin]
    have hlap : (update scene horses time delta d h).1.currentLap
        = computeLap scene h.distance := by
      unfold update
      rw [if_neg hne]
      rw [integrate_currentLap, positioning_currentLap, handleRaceEvents_currentLap,
        lapStage_currentLap]
    refine ⟨hlap, ?_⟩
    rw [hlap]
    exact min_le_left _ _
  · intro scene d1 d2 hL hd
    unfold computeLap
    have hdd : d1 / scene.trackLength ≤ d2 / scene.trackLength := by gcongr
    exact min_le_min le_rfl (add_le_add_right (Int.floor_le_floor hdd) 1)

/-- Witness for C5 at concrete inputs. -/
theorem currentLap_clamped_monotone_witness :
    ((update plainScene [plainHorse] 0 16 plainDraws plainHorse).1.currentLap
        = computeLap plainScene plainHorse.distance ∧
      (update plainScene [plainHorse] 0 16 plainDraws plainHorse).1.currentLap
        ≤ (plainScene.totalLaps : ℤ)) ∧
    computeLap plainScene 0 ≤ computeLap plainScene 5 :=
  ⟨currentLap_clamped_monotone.1 plainScene [plainHorse] 0 16 plainDraws plainHorse rfl,
    currentLap_clamped_monotone.2 plainScene 0 5 (by norm_num [plainScene]) (by norm_num)⟩

/-- C7: the per-tick momentum decay multiplies by exactly 0.995 above the
0.01 threshold and snaps to exactly 0 at or below it; iterated with no
external nudges it is exactly geometric, `m * 0.995 ^ n`, while every
intermediate value stays above the threshold; and on a tick where no other
stage touches momentum (no lap increase, no start time, race not in
progress) the updated momentum is exactly the decayed one. -/
theorem momentum_decay_geometric :
    (∀ m : ℚ, 0.01 < |m| → decayMomentum m = m * 0.995) ∧
    (∀ m : ℚ, |m| ≤ 0.01 → decayMomentum m = 0) ∧
    (∀ (m : ℚ) (n : ℕ), (∀ k, k < n → 0.01 < |m * 0.995 ^ k|) →
      decayMomentum^[n] m = m * 0.995 ^ n) ∧
    (∀ (scene : Scene) (horses : List Horse) (time delta : ℚ) (d : Draws) (h : Horse),
      h.finished = false → computeLap scene h.distance ≤ h.currentLap →
      scene.raceStartTime = none → scene.raceInProgress = false →
      (update scene horses time delta d h).1.momentum = decayMomentum h.momentum) := by
  refine ⟨fun m hm => if_pos hm, fun m hm => if_neg (not_lt.2 hm), ?_, ?_⟩
  · intro m n
    induction n generalizing m with
    | zero => intro _; simp
    | succ n ih =>
      intro hk
      have h0 : 0.01 < |m| := by simpa using hk 0 (Nat.succ_pos n)
      have hd : decayMomentum m = m * 0.995 := if_pos h0
      rw [Function.iterate_succ_apply, hd, ih]
      · ring
      · intro k hkn
        have hs : m * 0.995 * 0.995 ^ k = m * 0.995 ^ (k + 1) := by ring
        rw [hs]
        exact hk (k + 1) (Nat.succ_lt_succ hkn)
  · intro scene horses time delta d h hfin hle hrs hrp
    have hne : ¬(h.finished = true) := by simp [hfin]
    unfold update
    rw [if_neg hne, integrate_momentum,
      positioning_of_notInProgress _ _ _ _ _ hrp,
      handleRaceEvents_of_noStart _ _ _ _ _ hrs,
      lapStage_momentum_of_noLapChange _ _ _ _ hle]

/-- Witness for C7 at concrete momenta. -/
theorem momentum_decay_geometric_witness :
    decayMomentum 1 = 1 * 0.995 ∧ decayMomentum 0.005 = 0 :=
  ⟨momentum_decay_geometric.1 1 (by norm_num),
    momentum_decay_geometric.2.1 0.005 (by rw [abs_of_pos] <;> norm_num)⟩

/-- C10: the constructor builds exactly `totalLaps` lap factors, and for a
non-negative distance on a positive-length track with at least one lap, the
clamped `currentLap` puts the lookup index `currentLap - 1` in bounds, so
the `|| { speedBoost: 0, staminaBoost: 0 }` fallback of the lookup is never
taken: the lookup returns the stored entry itself. -/
theorem lapFactor_index_inBounds :
    (∀ (rs : ℕ → ℚ × ℚ) (n : ℕ), (mkLapFactors rs n).length = n) ∧
    (∀ (scene : Scene) (h : Horse), 1 ≤ scene.totalLaps → 0 < scene.trackLength →
      0 ≤ h.distance → h.lapFactors.length = scene.totalLaps →
      0 ≤ computeLap scene h.distance - 1 ∧
      (computeLap scene h.distance - 1).toNat < h.lapFactors.length ∧
      ∀ hb : (computeLap scene h.distance - 1).toNat < h.lapFactors.length,
        lapFactorAt h.lapFactors (computeLap scene h.distance - 1)
          = h.lapFactors.get ⟨(computeLap scene h.distance - 1).toNat, hb⟩) := by
  constructor
  · intro rs n
    simp [mkLapFactors]
  · intro scene h hT hL hd hlen
    have hfl : 0 ≤ ⌊h.distance / scene.trackLength⌋ :=
      Int.floor_nonneg.2 (div_nonneg hd hL.le)
    have h1T : (1 : ℤ) ≤ (scene.totalLaps : ℤ) := by exact_mod_cast hT
    have hlow : 1 ≤ computeLap scene h.distance :=
      le_min h1T (by linarith)
    have hhigh : computeLap scene h.distance ≤ (scene.totalLaps : ℤ) :=
      min_le_left _ _
    have hbound : (computeLap scene h.distance - 1).toNat < h.lapFactors.length := by
      rw [hlen]
      omega
    refine ⟨by omega, hbound, fun hb => ?_⟩
    unfold lapFactorAt
    rw [if_pos (by omega : 0 ≤ computeLap scene h.distance - 1)]
    exact List.getD_eq_get _ _ hb

/-- Witness for C10 at a concrete scene and horse. -/
theorem lapFactor_index_inBounds_witness :
    (mkLapFactors (fun _ => (1/2, 1/2)) 3).length = 3 ∧
    (0 ≤ computeLap plainScene plainHorse.distance - 1 ∧
      (computeLap plainScene plainHorse.distance - 1).toNat < plainHorse.lapFactors.length) :=
  ⟨lapFactor_index_inBounds.1 (fun _ => (1/2, 1/2)) 3,
    ⟨(lapFactor_index_inBounds.2 plainScene plainHorse (by norm_num [plainScene])
        (by norm_num [plainScene]) (by norm_num [plainHorse])
        (by norm_num [plainHorse, plainScene])).1,
      (lapFactor_index_inBounds.2 plainScene plainHorse (by norm_num [plainScene])
        (by norm_num [plainScene]) (by norm_num [plainHorse])
        (by norm_num [plainHorse, plainScene])).2.1⟩⟩

/-- C1 counterexample: with a running race and two active agents at
distances 950 and 900, the rank-1 trailer that still carries leadHandicap
0.2 from an earlier tick keeps it after the positioning service runs, while
also receiving a non-zero catchUpFactor — so the trailing branch does not
reset `leadHandicap` to 0 and the two factors are simultaneously
non-zero. -/
theorem positioning_stale_leadHandicap_cex :
    (updateRacePositioningFactors plainScene [horseA, staleHorse] 0 (1/2)
      staleHorse).leadHandicap = 1/5 ∧
    (updateRacePositioningFactors plainScene [horseA, staleHorse] 0 (1/2)
      staleHorse).catchUpFactor ≠ 0 := by
  constructor <;>
    norm_num [updateRacePositioningFactors, sortByDistanceDesc, activeHorses,
      plainScene, plainHorse, horseA, staleHorse, List.insertionSort,
      List.orderedInsert, dge, List.findIdx, List.findIdx.go, Bool.cond_eq_if]

/-- C1 (amended): with a running race and at least two active agents, the
positioning service never writes `leadHandicap` for an agent of rank
r > 0 — the trailing branch leaves it at its previous value (it is not
reset to 0, so a stale non-zero handicap can coexist with the non-zero
catch-up factor) — and only the rank-0 branch writes it, while resetting
that agent's `catchUpFactor` to 0. -/
theorem positioning_leadHandicap_write_policy (scene : Scene) (horses : List Horse)
    (pb pr : ℚ) (self : Horse) (hrp : scene.raceInProgress = true)
    (hfin : self.finished = false) (hlen : 2 ≤ (activeHorses horses).length) :
    (0 < (sortByDistanceDesc (activeHorses horses)).findIdx
        (fun h => h.lane == self.lane) →
      (updateRacePositioningFactors scene horses pb pr self).leadHandicap
        = self.leadHandicap) ∧
    ((sortByDistanceDesc (activeHorses horses)).findIdx
        (fun h => h.lane == self.lane) = 0 →
      (updateRacePositioningFactors scene horses pb pr self).catchUpFactor = 0 ∧
      (updateRacePositioningFactors scene horses pb pr self).leadHandicap
        = min 0.3 ((self.distance
            - ((sortByDistanceDesc (activeHorses horses)).getD 1 default).distance)
          / scene.trackLength * 2.0)) := by
  have hA : ¬(scene.raceInProgress = false ∨ self.finished = true) := by
    simp [hrp, hfin]
  have hB : ¬((activeHorses horses).length ≤ 1) := by omega
  unfold updateRacePositioningFactors
  simp only []
  rw [if_neg hA, if_neg hB]
  constructor
  · intro hpos
    rw [if_pos hpos]
    split_ifs <;> rfl
  · intro hpos
    rw [if_neg (by omega : ¬(0 < (sortByDistanceDesc (activeHorses horses)).findIdx
      (fun h => h.lane == self.lane)))]
    split_ifs <;> exact ⟨rfl, rfl⟩

/-- Witness for C1's amended theorem: the clean trailing agent of the
two-horse scenario keeps its (zero) lead handicap. -/
theorem positioning_leadHandicap_write_policy_witness :
    (updateRacePositioningFactors plainScene [horseA, horseB] (1/2) (1/2)
      horseB).leadHandicap = horseB.leadHandicap :=
  (positioning_leadHandicap_write_policy plainScene [horseA, horseB] (1/2) (1/2) horseB
    rfl rfl
    (by norm_num [activeHorses, horseA, horseB, plainHorse])).1
    (by norm_num [sortByDistanceDesc, activeHorses, horseA, horseB, plainHorse,
      List.insertionSort, List.orderedInsert, dge, List.findIdx, List.findIdx.go,
      Bool.cond_eq_if])

/-- C4: for a rank r > 0 agent among N ≥ 2 active agents, the positioning
service sets `catchUpFactor` to
`min(0.25, 0.03 r) + min(0.25, percentBehind * 1.5) + randomBoost`
(with `randomBoost = posBoost * 0.1`, uniform in [0, 0.1) for a draw in
[0, 1)), plus 0.15 exactly when r = N - 1; and in the spec scenario —
track length 1000, leader at 950, trailer at 900 — the trailer's resulting
factor lies in [0.255, 0.355) for every draw in [0, 1). -/
theorem catchUpFactor_formula :
    (∀ (scene : Scene) (horses : List Horse) (pb pr : ℚ) (self : Horse),
      scene.raceInProgress = true → self.finished = false →
      2 ≤ (activeHorses horses).length →
      0 < (sortByDistanceDesc (activeHorses horses)).findIdx
        (fun h => h.lane == self.lane) →
      (updateRacePositioningFactors scene horses pb pr self).catchUpFactor
        = min 0.25 (0.03 * (((sortByDistanceDesc (activeHorses horses)).findIdx
            (fun h => h.lane == self.lane) : ℚ)))
          + min 0.25 ((((sortByDistanceDesc (activeHorses horses)).getD 0 default).distance
              - self.distance) / scene.trackLength * 1.5)
          + pb * 0.1
          + (if (sortByDistanceDesc (activeHorses horses)).findIdx
                (fun h => h.lane == self.lane)
              = (sortByDistanceDesc (activeHorses horses)).length - 1
             then 0.15 else 0)) ∧
    (∀ pb : ℚ, 0 ≤ pb → pb < 1 →
      0.255 ≤ (updateRacePositioningFactors plainScene [horseA, horseB] pb (1/2)
        horseB).catchUpFactor ∧
      (updateRacePositioningFactors plainScene [horseA, horseB] pb (1/2)
        horseB).catchUpFactor < 0.355) := by
  have hgen : ∀ (scene : Scene) (horses : List Horse) (pb pr : ℚ) (self : Horse),
      scene.raceInProgress = true → self.finished = false →
      2 ≤ (activeHorses horses).length →
      0 < (sortByDistanceDesc (activeHorses horses)).findIdx
        (fun h => h.lane == self.lane) →
      (updateRacePositioningFactors scene horses pb pr self).catchUpFactor
        = min 0.25 (0.03 * (((sortByDistanceDesc (activeHorses horses)).findIdx
            (fun h => h.lane == self.lane) : ℚ)))
          + min 0.25 ((((sortByDistanceDesc (activeHorses horses)).getD 0 default).distance
              - self.distance) / scene.trackLength * 1.5)
          + pb * 0.1
          + (if (sortByDistanceDesc (activeHorses horses)).findIdx
                (fun h => h.lane == self.lane)
              = (sortByDistanceDesc (activeHorses horses)).length - 1
             then 0.15 else 0) := by
    intro scene horses pb pr self hrp hfin hlen hpos
    have hA : ¬(scene.raceInProgress = false ∨ self.finished = true) := by
      simp [hrp, hfin]
    have hB : ¬((activeHorses horses).length ≤ 1) := by omega
    unfold updateRacePositioningFactors
    simp only []
    rw [if_neg hA, if_neg hB, if_pos hpos]
    split_ifs <;> dsimp only <;> ring
  refine ⟨hgen, fun pb h0 h1 => ?_⟩
  have hval := hgen plainScene [horseA, horseB] pb (1/2) horseB rfl rfl
    (by norm_num [activeHorses, horseA, horseB, plainHorse])
    (by norm_num [sortByDistanceDesc, activeHorses, horseA, horseB, plainHorse,
      List.insertionSort, List.orderedInsert, dge, List.findIdx, List.findIdx.go,
      Bool.cond_eq_if])
  rw [hval]
  norm_num [sortByDistanceDesc, activeHorses, horseA, horseB, plainHorse, plainScene,
    List.insertionSort, List.orderedInsert, dge, List.findIdx, List.findIdx.go,
    Bool.cond_eq_if]
  constructor <;> linarith

/-- Witness for C4 at the midpoint draw. -/
theorem catchUpFactor_formula_witness :
    0.255 ≤ (updateRacePositioningFactors plainScene [horseA, horseB] (1/2) (1/2)
      horseB).catchUpFactor ∧
    (updateRacePositioningFactors plainScene [horseA, horseB] (1/2) (1/2)
      horseB).catchUpFactor < 0.355 :=
  catchUpFactor_formula.2 (1/2) (by norm_num) (by norm_num)

/-- C3: on a tick of a non-finished agent, the agent finishes, records
`finishTime := time` and notifies the controller exactly when, after this
tick's distance accumulation, `distance ≥ totalLaps * trackLength` and the
lap-relative distance `distance % trackLength` lies in [0, 50]; otherwise
`finishTime` is left untouched.  In the concrete scenarios (track length
1000, one lap, zero elapsed time) the agent at distance exactly 1000 with
lap-relative position 0 finishes, while the agent at distance 1200 with
lap-relative position 200 does not. -/
theorem update_finish_check :
    (∀ (scene : Scene) (horses : List Horse) (time delta : ℚ) (d : Draws) (h : Horse),
      h.finished = false →
      ((update scene horses time delta d h).1.finished
        = (update scene horses time delta d h).2) ∧
      ((update scene horses time delta d h).2 = true ↔
        ((scene.totalLaps : ℚ) * scene.trackLength
            ≤ (update scene horses time delta d h).1.distance ∧
          0 ≤ jsMod ((update scene horses time delta d h).1.distance) scene.trackLength ∧
          jsMod ((update scene horses time delta d h).1.distance) scene.trackLength ≤ 50)) ∧
      ((update scene horses time delta d h).2 = true →
        (update scene horses time delta d h).1.finishTime = some time) ∧
      ((update scene horses time delta d h).2 = false →
        (update scene horses time delta d h).1.finishTime = h.finishTime)) ∧
    (update quietScene [finHorse] 7 0 plainDraws finHorse).2 = true ∧
    (update quietScene [overHorse] 7 0 plainDraws overHorse).2 = false := by
  refine ⟨?_, ?_, ?_⟩
  · intro scene horses time delta d h hfin
    have hne : ¬(h.finished = true) := by simp [hfin]
    unfold update
    simp only []
    rw [if_neg hne]
    set h1 := lapStage scene horses d h with hh1
    set h2 := handleRaceEvents scene time delta d h1 with hh2
    set h3 := updateRacePositioningFactors scene horses d.posBoost d.posRoll h2 with hh3
    have hfin3 : h3.finished = false := by
      rw [hh3, positioning_finished, hh2, handleRaceEvents_finished, hh1,
        lapStage_finished, hfin]
    have hft3 : h3.finishTime = h.finishTime := by
      rw [hh3, positioning_finishTime, hh2, handleRaceEvents_finishTime, hh1,
        lapStage_finishTime]
    obtain ⟨hiff, hfe, hsome, hnone⟩ := integrate_spec scene time delta d h3 hfin3
    refine ⟨hfe, ?_, hsome, fun hf => (hnone hf).trans hft3⟩
    rw [integrate_distance]
    exact hiff
  · norm_num [update, lapStage, computeLap, handleRaceEvents,
      updateRacePositioningFactors, integrate, integrateDist, integrateSpeed,
      decayMomentum, lapFactorAt, jsMod, ratTrunc, quietScene, finHorse,
      plainHorse, plainDraws, activeHorses, Bool.cond_eq_if]
  · norm_num [update, lapStage, computeLap, handleRaceEvents,
      updateRacePositioningFactors, integrate, integrateDist, integrateSpeed,
      decayMomentum, lapFactorAt, jsMod, ratTrunc, quietScene, overHorse,
      plainHorse, plainDraws, activeHorses, Bool.cond_eq_if]

/-- Witness for C3's general clause at a concrete non-finished agent. -/
theorem update_finish_check_witness :
    (update quietScene [finHorse] 7 0 plainDraws finHorse).1.finished
      = (update quietScene [finHorse] 7 0 plainDraws finHorse).2 :=
  (update_finish_check.1 quietScene [finHorse] 7 0 plainDraws finHorse rfl).1

/-- C6: one update tick of a non-finished roster member with non-negative
elapsed time never decreases `distance`: the speed clamp keeps the speed at
least `0.7 + 1.5 * catchUpFactor ≥ 0.7` (the catch-up factor stays
non-negative through the tick), the stamina factor is at least 0.7, the
instantaneous random factor is non-negative for a draw in [0, 1] and
`luckFactor ≤ 0.25`, and the event multiplier stays positive. -/
theorem distance_nondecreasing (scene : Scene) (horses : List Horse)
    (time delta : ℚ) (d : Draws) (h : Horse)
    (hfin : h.finished = false) (hmem : h ∈ horses) (hδ : 0 ≤ delta)
    (hc : 0 ≤ h.catchUpFactor) (hev : 0 < h.eventMultiplier)
    (hl0 : 0 ≤ h.luckFactor) (hl1 : h.luckFactor ≤ 0.25)
    (hr0 : 0 ≤ d.instRand) (hr1 : d.instRand ≤ 1)
    (hpb : 0 ≤ d.posBoost) (htr : 0 < scene.trackLength) :
    h.distance ≤ (update scene horses time delta d h).1.distance := by
  have hne : ¬(h.finished = true) := by simp [hfin]
  unfold update
  simp only []
  rw [if_neg hne]
  set h1 := lapStage scene horses d h with hh1
  set h2 := handleRaceEvents scene time delta d h1 with hh2
  set h3 := updateRacePositioningFactors scene horses d.posBoost d.posRoll h2 with hh3
  have h1d : h1.distance = h.distance := by rw [hh1, lapStage_distance]
  have h2d : h2.distance = h.distance := by rw [hh2, handleRaceEvents_distance, h1d]
  have h3d : h3.distance = h.distance := by rw [hh3, positioning_distance, h2d]
  have h2c : h2.catchUpFactor = h.catchUpFactor := by
    rw [hh2, handleRaceEvents_catchUpFactor, hh1, lapStage_catchUpFactor]
  have h3c : 0 ≤ h3.catchUpFactor := by
    rw [hh3]
    exact positioning_catchUp_nonneg scene horses d.posBoost d.posRoll h2
      (by rw [h2c]; exact hc) hpb htr ⟨h, hmem, hfin, h2d.symm⟩
  have h1e : h1.eventMultiplier = h.eventMultiplier := by
    rw [hh1, lapStage_eventMultiplier]
  have h2e : 0 < h2.eventMultiplier := by
    rw [hh2]
    exact handleRaceEvents_eventMultiplier_pos scene time delta d h1 (by rw [h1e]; exact hev)
  have h3e : 0 ≤ h3.eventMultiplier := by
    rw [hh3, positioning_eventMultiplier]
    exact h2e.le
  have h2l : h2.luckFactor = h.luckFactor := by
    rw [hh2, handleRaceEvents_luckFactor, hh1, lapStage_luckFactor]
  have h3l : h3.luckFactor = h.luckFactor := by
    rw [hh3, positioning_luckFactor, h2l]
  rw [integrate_distance]
  calc h.distance = h3.distance := h3d.symm
    _ ≤ integrateDist scene delta d h3 :=
      integrateDist_mono scene delta d h3 hδ h3c h3e
        (by rw [h3l]; exact hl0) (by rw [h3l]; exact hl1) hr0

/-- Witness for C6: a concrete mid-race agent moves forward (or stays) on a
16 ms tick. -/
theorem distance_nondecreasing_witness :
    horseB.distance ≤ (update plainScene [horseA, horseB] 0 16 plainDraws horseB).1.distance :=
  distance_nondecreasing plainScene [horseA, horseB] 0 16 plainDraws horseB
    rfl (by simp [horseA, horseB, plainHorse]) (by norm_num)
    (by norm_num [horseB, plainHorse]) (by norm_num [horseB, plainHorse])
    (by norm_num [horseB, plainHorse]) (by norm_num [horseB, plainHorse])
    (by norm_num [plainDraws]) (by norm_num [plainDraws])
    (by norm_num [plainDraws]) (by norm_num [plainScene])
